import Mathlib

/-!
Verification development for the pairs-trading bot (strategy.py / main.py /
config.py).  Prices and statistics are modelled over `ℚ`; a float `NaN` is
modelled as `none` in `Option ℚ`.  The square root used by the rolling
standard deviation is irrational in general, so it is passed in as an
abstract function `sq : ℚ → ℚ`; no claim below depends on its values.
-/

namespace Ouroboros

/-- Trading signals produced by the strategy (strategy.py, `class Signal`). -/
inductive Signal where
  | LONG_BTC_SHORT_ETH
  | SHORT_BTC_LONG_ETH
  | CLOSE_POSITIONS
  | HOLD
  deriving DecidableEq, Repr

/-- Position states of the state machine of the orchestrator (main.py,
`class PositionState`). -/
inductive PositionState where
  | NONE
  | HOLDING_BTC
  | HOLDING_ETH
  deriving DecidableEq, Repr

/-- Result bundle returned by `get_signal()` (strategy.py, `StrategyResult`).
Float fields that can be `NaN` in the Python code (`z_score`, `spread_mean`,
`spread_std`) are `Option ℚ`; the remaining price fields are plain `ℚ`. -/
structure StrategyResult where
  signal : Signal
  z_score : Option ℚ
  spread : ℚ
  spread_mean : Option ℚ
  spread_std : Option ℚ
  btc_close : ℚ
  eth_close : ℚ
  is_data_valid : Bool
  error_message : Option String
  deriving DecidableEq, Repr

/-- `config.SYMBOL_BASE`. -/
def SYMBOL_BASE : String := "BTC/USDT"

/-- `config.SYMBOL_QUOTE`. -/
def SYMBOL_QUOTE : String := "ETH/USDT"

/-- `config.TRADE_AMOUNT_USDT`. -/
def TRADE_AMOUNT_USDT : ℚ := 150

/-- Strategy parameters carried by `PairsTradingStrategy.__init__`. -/
structure StrategyParams where
  rolling_window : Nat
  entry_threshold : ℚ
  exit_threshold : ℚ

/-- `PairsTradingStrategy.fetch_data`: the raw exchange response is `none`
on any ccxt exception; an empty OHLCV list is also mapped to `none`
(`if not raw_ohlcv: return None`).  Only the close column is modelled. -/
def fetchData (raw : Option (List ℚ)) : Option (List ℚ) :=
  match raw with
  | none => none
  | some l => if l = [] then none else some l

/-- `PairsTradingStrategy._calculate_spread`: refuses empty inputs and any
zero quote close, otherwise the elementwise ratio base/quote. -/
def calculateSpread (basePrices quotePrices : List ℚ) : Option (List ℚ) :=
  if basePrices = [] ∨ quotePrices = [] then none
  else if quotePrices.any (fun q => decide (q = 0)) then none
  else some (List.zipWith (fun b q => b / q) basePrices quotePrices)

/-- Arithmetic mean of a list, as computed by pandas `.mean()` on a full
window. -/
def listMean (l : List ℚ) : ℚ := l.sum / (l.length : ℚ)

/-- Sample variance with `ddof = 1` (the pandas `.std()` default, before the
square root).  A window of fewer than two points has undefined variance
(pandas yields `NaN` there). -/
def sampleVar (l : List ℚ) : Option ℚ :=
  if l.length ≤ 1 then none
  else some ((l.map (fun x => (x - listMean l) ^ 2)).sum / ((l.length - 1 : Nat) : ℚ))

/-- The trailing window of width `w` ending at index `i` (inclusive), as used
by pandas `.rolling(window=w)`. -/
def trailingWindow (xs : List ℚ) (i w : Nat) : List ℚ :=
  (xs.take (i + 1)).drop (i + 1 - w)

/-- pandas `.rolling(window=w)` applied pointwise: indices with fewer than
`w` observations (i.e. `i + 1 < w`) are `NaN`. -/
def rollingApply (f : List ℚ → Option ℚ) (w : Nat) (xs : List ℚ) : List (Option ℚ) :=
  (List.range xs.length).map (fun i => if i + 1 < w then none else f (trailingWindow xs i w))

/-- `spread.rolling(window=w).mean()`. -/
def rollingMean (w : Nat) (xs : List ℚ) : List (Option ℚ) :=
  rollingApply (fun l => some (listMean l)) w xs

/-- `spread.rolling(window=w).std()`: square root of the sample variance,
with the square root abstracted as `sq`. -/
def rollingStd (sq : ℚ → ℚ) (w : Nat) (xs : List ℚ) : List (Option ℚ) :=
  rollingApply (fun l => (sampleVar l).map sq) w xs

/-- One entry of the Z-score series: `(x - mean) / std` after the replacement in the code of a zero std by `NaN` (`rolling_std.replace(0, np.nan)`), with
`NaN` propagation through the division. -/
def zEntry (x : ℚ) (m s : Option ℚ) : Option ℚ :=
  match m, s with
  | some mv, some sv => if sv = 0 then none else some ((x - mv) / sv)
  | _, _ => none

/-- `PairsTradingStrategy._calculate_z_score`: fails on an empty spread and
on a spread shorter than the rolling window; otherwise the elementwise
Z-score with zero-std windows mapped to `NaN`. -/
def calculateZScore (sq : ℚ → ℚ) (w : Nat) (spread : List ℚ) : Option (List (Option ℚ)) :=
  if spread = [] then none
  else if spread.length < w then none
  else
    some ((List.range spread.length).map (fun i =>
      zEntry (spread.getD i 0) ((rollingMean w spread).getD i none)
        ((rollingStd sq w spread).getD i none)))

/-- `PairsTradingStrategy._determine_signal`: entry thresholds first, then
the zero-cross (exit-threshold straddle) check on the last two non-`NaN`
Z-scores, else `HOLD`. -/
def determineSignal (entryThreshold exitThreshold : ℚ) (currentZ : Option ℚ)
    (zScoreHistory : List (Option ℚ)) : Signal :=
  match currentZ with
  | none => .HOLD
  | some z =>
    if entryThreshold < z then .SHORT_BTC_LONG_ETH
    else if z < -entryThreshold then .LONG_BTC_SHORT_ETH
    else
      let validZ := zScoreHistory.filterMap id
      if 2 ≤ validZ.length then
        let previousZ := validZ.getD (validZ.length - 2) 0
        if (exitThreshold < previousZ ∧ z < exitThreshold) ∨
            (previousZ < exitThreshold ∧ exitThreshold < z) then .CLOSE_POSITIONS
        else .HOLD
      else .HOLD

/-- The invalid `StrategyResult` returned when either OHLCV fetch fails. -/
def fetchFailResult : StrategyResult :=
  { signal := .HOLD, z_score := some 0, spread := 0, spread_mean := some 0,
    spread_std := some 0, btc_close := 0, eth_close := 0,
    is_data_valid := false,
    error_message := some "OHLCV fetch returned None for one or both symbols." }

/-- The invalid `StrategyResult` returned when the spread stage fails; note
the latest closes of the fetched data are reported, not zeros. -/
def spreadFailResult (dfBase dfQuote : List ℚ) : StrategyResult :=
  { signal := .HOLD, z_score := some 0, spread := 0, spread_mean := some 0,
    spread_std := some 0, btc_close := dfBase.getLastD 0,
    eth_close := dfQuote.getLastD 0, is_data_valid := false,
    error_message := some "Spread series is empty after calculation." }

/-- The invalid `StrategyResult` returned when the Z-score stage fails; the
latest closes of the fetched data are reported, not zeros. -/
def zScoreFailResult (dfBase dfQuote : List ℚ) : StrategyResult :=
  { signal := .HOLD, z_score := some 0, spread := 0, spread_mean := some 0,
    spread_std := some 0, btc_close := dfBase.getLastD 0,
    eth_close := dfQuote.getLastD 0, is_data_valid := false,
    error_message := some "Z-score series is empty after calculation." }

/-- `PairsTradingStrategy.get_signal`: fetch both close series, compute the
spread, the Z-score series, the latest values, and the signal.  `rawBase`
and `rawQuote` are the raw exchange responses fed to `fetch_data`. -/
def getSignal (sq : ℚ → ℚ) (p : StrategyParams) (rawBase rawQuote : Option (List ℚ)) :
    StrategyResult :=
  match fetchData rawBase, fetchData rawQuote with
  | none, _ => fetchFailResult
  | some _, none => fetchFailResult
  | some dfBase, some dfQuote =>
    match calculateSpread dfBase dfQuote with
    | none => spreadFailResult dfBase dfQuote
    | some spreadSeries =>
      if spreadSeries = [] then spreadFailResult dfBase dfQuote
      else
        match calculateZScore sq p.rolling_window spreadSeries with
        | none => zScoreFailResult dfBase dfQuote
        | some zSeries =>
          if zSeries.filterMap id = [] then zScoreFailResult dfBase dfQuote
          else
            { signal := determineSignal p.entry_threshold p.exit_threshold
                ((zSeries.getLast?).getD none) zSeries,
              z_score := (zSeries.getLast?).getD none,
              spread := spreadSeries.getLastD 0,
              spread_mean := ((rollingMean p.rolling_window spreadSeries).getLast?).getD none,
              spread_std := ((rollingStd sq p.rolling_window spreadSeries).getLast?).getD none,
              btc_close := dfBase.getLastD 0,
              eth_close := dfQuote.getLastD 0,
              is_data_valid := true,
              error_message := none }

/-- Market orders attempted by the state machine (`_execute_buy` /
`_execute_sell` invocations, with their arguments). -/
inductive OrderAction where
  | buy (symbol : String) (usdtAmount : ℚ)
  | sell (symbol : String) (coinAmount : ℚ)
  deriving DecidableEq, Repr

/-- `main._process_signal`: the position state machine.  `buySucceeds` /
`sellSucceeds` model the boolean outcome of `_execute_buy` / `_execute_sell`
for this cycle, and `freeBalance` models the value `_get_coin_balance`
returns for the held coin.  The returned list records which orders were
attempted (at most one per call). -/
def processSignal (signal : Signal) (state : PositionState)
    (buySucceeds sellSucceeds : Bool) (freeBalance : ℚ) :
    PositionState × List OrderAction :=
  match state with
  | .NONE =>
    match signal with
    | .LONG_BTC_SHORT_ETH =>
      if buySucceeds then (.HOLDING_BTC, [.buy SYMBOL_BASE TRADE_AMOUNT_USDT])
      else (.NONE, [.buy SYMBOL_BASE TRADE_AMOUNT_USDT])
    | .SHORT_BTC_LONG_ETH =>
      if buySucceeds then (.HOLDING_ETH, [.buy SYMBOL_QUOTE TRADE_AMOUNT_USDT])
      else (.NONE, [.buy SYMBOL_QUOTE TRADE_AMOUNT_USDT])
    | _ => (.NONE, [])
  | .HOLDING_BTC =>
    if signal = .CLOSE_POSITIONS ∨ signal = .SHORT_BTC_LONG_ETH then
      if freeBalance ≤ 0 then (.NONE, [])
      else if sellSucceeds then (.NONE, [.sell SYMBOL_BASE freeBalance])
      else (.HOLDING_BTC, [.sell SYMBOL_BASE freeBalance])
    else (.HOLDING_BTC, [])
  | .HOLDING_ETH =>
    if signal = .CLOSE_POSITIONS ∨ signal = .LONG_BTC_SHORT_ETH then
      if freeBalance ≤ 0 then (.NONE, [])
      else if sellSucceeds then (.NONE, [.sell SYMBOL_QUOTE freeBalance])
      else (.HOLDING_ETH, [.sell SYMBOL_QUOTE freeBalance])
    else (.HOLDING_ETH, [])

/-- Whether an attempted order failed, given the buy/sell outcomes of the cycle. -/
def actionFailed (buySucceeds sellSucceeds : Bool) : OrderAction → Bool
  | .buy _ _ => !buySucceeds
  | .sell _ _ => !sellSucceeds

/-- Modelled from the spec: the success column of the transition table of
§4.2 (FLAT = `NONE`, HOLDING_BASE = `HOLDING_BTC`, HOLDING_QUOTE =
`HOLDING_ETH`, LONG_BASE = `LONG_BTC_SHORT_ETH`, LONG_QUOTE =
`SHORT_BTC_LONG_ETH`).  Rows without an action keep the current state. -/
def specNextState (state : PositionState) (signal : Signal) : PositionState :=
  match state, signal with
  | .NONE, .LONG_BTC_SHORT_ETH => .HOLDING_BTC
  | .NONE, .SHORT_BTC_LONG_ETH => .HOLDING_ETH
  | .NONE, _ => .NONE
  | .HOLDING_BTC, .CLOSE_POSITIONS => .NONE
  | .HOLDING_BTC, .SHORT_BTC_LONG_ETH => .NONE
  | .HOLDING_BTC, _ => .HOLDING_BTC
  | .HOLDING_ETH, .CLOSE_POSITIONS => .NONE
  | .HOLDING_ETH, .LONG_BTC_SHORT_ETH => .NONE
  | .HOLDING_ETH, _ => .HOLDING_ETH

/-- The signal-override block of the main loop (main.py, the marked
temporary test hack between `get_signal()` and `_process_signal`): it
mutates `result.signal` depending on the current position state. -/
def testSignalOverride (state : PositionState) (r : StrategyResult) : StrategyResult :=
  match state with
  | .NONE => { r with signal := .LONG_BTC_SHORT_ETH }
  | .HOLDING_BTC => { r with signal := .CLOSE_POSITIONS }
  | .HOLDING_ETH => r

/-- A representative valid `StrategyResult` carrying a `HOLD` signal, as
`get_signal()` returns on a quiet cycle. -/
def holdResultExample : StrategyResult :=
  { signal := .HOLD, z_score := some (1 / 2), spread := 20, spread_mean := some 20,
    spread_std := some 1, btc_close := 60000, eth_close := 3000,
    is_data_valid := true, error_message := none }

/-- C1: the claim says the orchestration loop passes the signal computed by
`get_signal` unchanged to `_process_signal` and never modifies the
`StrategyResult`.  The test-hack block of the loop contradicts this: with the
position state `NONE` and a computed `HOLD` signal, the result object is
mutated and `LONG_BTC_SHORT_ETH` is what reaches the state machine. -/
theorem c1_loop_overrides_signal :
    (testSignalOverride .NONE holdResultExample).signal = .LONG_BTC_SHORT_ETH ∧
    holdResultExample.signal = .HOLD ∧
    testSignalOverride .NONE holdResultExample ≠ holdResultExample := by
  refine ⟨rfl, rfl, ?_⟩
  decide

/-- C3: for every state and signal, if the order attempted by
`_process_signal` fails the returned state equals the current state, and if
no attempted order fails the returned state is exactly the one prescribed
by the transition table of the spec. -/
theorem c3_failure_unchanged_success_advances (signal : Signal) (state : PositionState)
    (buySucceeds sellSucceeds : Bool) (freeBalance : ℚ) :
    ((∃ a ∈ (processSignal signal state buySucceeds sellSucceeds freeBalance).2,
        actionFailed buySucceeds sellSucceeds a = true) →
      (processSignal signal state buySucceeds sellSucceeds freeBalance).1 = state) ∧
    ((∀ a ∈ (processSignal signal state buySucceeds sellSucceeds freeBalance).2,
        actionFailed buySucceeds sellSucceeds a = false) →
      (processSignal signal state buySucceeds sellSucceeds freeBalance).1 =
        specNextState state signal) := by
  rcases le_or_lt freeBalance 0 with hb | hb
  · cases state <;> cases signal <;> cases buySucceeds <;> cases sellSucceeds <;>
      simp [processSignal, specNextState, actionFailed, hb]
  · have hb' : ¬ freeBalance ≤ 0 := not_le.mpr hb
    cases state <;> cases signal <;> cases buySucceeds <;> cases sellSucceeds <;>
      simp [processSignal, specNextState, actionFailed, hb']

/-- Witness for C3: a failed BTC buy from `NONE` leaves the state `NONE`,
and a successful close from `HOLDING_BTC` follows the spec table. -/
theorem c3_witness :
    (processSignal .LONG_BTC_SHORT_ETH .NONE false true 99).1 = .NONE ∧
    (processSignal .CLOSE_POSITIONS .HOLDING_BTC true true 99).1 =
      specNextState .HOLDING_BTC .CLOSE_POSITIONS :=
  ⟨(c3_failure_unchanged_success_advances .LONG_BTC_SHORT_ETH .NONE false true 99).1
      ⟨.buy SYMBOL_BASE TRADE_AMOUNT_USDT, by decide, by decide⟩,
    (c3_failure_unchanged_success_advances .CLOSE_POSITIONS .HOLDING_BTC true true 99).2
      (by decide)⟩

/-- C4: from a holding state, an exit trigger with a non-positive observed
balance transitions to `NONE` with no sell order attempted. -/
theorem c4_sell_guard_forces_flat (signal : Signal) (buySucceeds sellSucceeds : Bool)
    (freeBalance : ℚ) (hbal : freeBalance ≤ 0) :
    ((signal = .CLOSE_POSITIONS ∨ signal = .SHORT_BTC_LONG_ETH) →
      processSignal signal .HOLDING_BTC buySucceeds sellSucceeds freeBalance =
        (.NONE, [])) ∧
    ((signal = .CLOSE_POSITIONS ∨ signal = .LONG_BTC_SHORT_ETH) →
      processSignal signal .HOLDING_ETH buySucceeds sellSucceeds freeBalance =
        (.NONE, [])) := by
  constructor <;> rintro (rfl | rfl) <;> simp [processSignal, hbal]

/-- Witness for C4: a `CLOSE` from `HOLDING_BTC` with zero balance. -/
theorem c4_witness :
    (0 : ℚ) ≤ 0 ∧
    processSignal .CLOSE_POSITIONS .HOLDING_BTC true true 0 = (.NONE, []) :=
  ⟨le_refl 0,
    (c4_sell_guard_forces_flat .CLOSE_POSITIONS true true 0 (le_refl 0)).1 (Or.inl rfl)⟩

/-- C6: when `|z|` strictly exceeds the (non-negative) entry threshold,
`_determine_signal` returns the corresponding entry signal and never
`CLOSE_POSITIONS`, regardless of the Z-score history. -/
theorem c6_entry_never_close (entryThr exitThr z : ℚ) (zScoreHistory : List (Option ℚ))
    (hpos : 0 ≤ entryThr) (habs : entryThr < |z|) :
    (entryThr < z →
      determineSignal entryThr exitThr (some z) zScoreHistory = .SHORT_BTC_LONG_ETH) ∧
    (z < -entryThr →
      determineSignal entryThr exitThr (some z) zScoreHistory = .LONG_BTC_SHORT_ETH) ∧
    determineSignal entryThr exitThr (some z) zScoreHistory ≠ .CLOSE_POSITIONS := by
  rcases lt_or_le entryThr z with h | h
  · refine ⟨fun _ => by simp [determineSignal, h], fun h2 => ?_, ?_⟩
    · exact absurd (lt_trans h h2) (by intro hcon; linarith)
    · simp [determineSignal, h]
  · have h2 : z < -entryThr := by
      rcases abs_cases z with ⟨he, _⟩ | ⟨he, _⟩
      · rw [he] at habs; linarith
      · rw [he] at habs; linarith
    refine ⟨fun hc => absurd hc (not_lt.mpr h), fun _ => ?_, ?_⟩
    · simp [determineSignal, not_lt.mpr h, h2]
    · simp [determineSignal, not_lt.mpr h, h2]

/-- Witness for C6: `z = 3` beyond an entry threshold of `2`. -/
theorem c6_witness :
    determineSignal 2 0 (some 3) [] = .SHORT_BTC_LONG_ETH ∧
    determineSignal 2 0 (some 3) [] ≠ .CLOSE_POSITIONS :=
  ⟨(c6_entry_never_close 2 0 3 [] (by norm_num) (by norm_num)).1 (by norm_num),
    (c6_entry_never_close 2 0 3 [] (by norm_num) (by norm_num)).2.2⟩

/-- C7: wherever the rolling standard deviation is exactly zero, the
Z-score series produced by `_calculate_z_score` is undefined (`none`,
modelling `NaN`): the division by a zero standard deviation is guarded. -/
theorem c7_zero_std_z_undefined (sq : ℚ → ℚ) (w : Nat) (spread : List ℚ)
    (zSeries : List (Option ℚ)) (i : Nat)
    (hz : calculateZScore sq w spread = some zSeries)
    (hstd : (rollingStd sq w spread).getD i none = some 0) :
    zSeries.getD i (some 0) = none := by
  have hlen : (rollingStd sq w spread).length = spread.length := by
    simp [rollingStd, rollingApply]
  have hilen : i < spread.length := by
    by_contra hcon
    rw [List.getD_eq_getElem?_getD,
      List.getElem?_eq_none (by rw [hlen]; exact not_lt.mp hcon)] at hstd
    simp at hstd
  have h1 : ¬ spread = [] := by
    intro h
    rw [calculateZScore, if_pos h] at hz
    exact Option.noConfusion hz
  have h2 : ¬ spread.length < w := by
    intro h
    rw [calculateZScore, if_neg h1, if_pos h] at hz
    exact Option.noConfusion hz
  rw [calculateZScore, if_neg h1, if_neg h2] at hz
  injection hz with hz
  rw [← hz, List.getD_eq_getElem _ _ (by simpa using hilen)]
  simp only [List.getElem_map, List.getElem_range]
  rw [hstd]
  rcases hm : (rollingMean w spread).getD i none with _ | mv <;> simp [zEntry]

/-- Witness for C7: the flat spread `[2, 2]` with window 2 has rolling
standard deviation zero at index 1, and the Z-score there is undefined. -/
theorem c7_witness :
    (rollingStd id 2 [2, 2]).getD 1 none = some 0 ∧
    calculateZScore id 2 [2, 2] = some [none, none] ∧
    ([none, none] : List (Option ℚ)).getD 1 (some 0) = none := by
  have hm : rollingMean 2 [2, 2] = [none, some 2] := by
    norm_num [rollingMean, rollingApply, trailingWindow, listMean, List.range_succ]
  have hs : rollingStd id 2 [2, 2] = [none, some 0] := by
    norm_num [rollingStd, rollingApply, trailingWindow, sampleVar, listMean,
      List.range_succ]
  have h1 : (rollingStd id 2 [2, 2]).getD 1 none = some 0 := by rw [hs]; rfl
  have h2 : calculateZScore id 2 [2, 2] = some [none, none] := by
    rw [calculateZScore, if_neg (by simp : ¬([2, 2] : List ℚ) = []),
      if_neg (by norm_num : ¬([2, 2] : List ℚ).length < 2)]
    norm_num [hm, hs, zEntry, List.range_succ]
  exact ⟨h1, h2, c7_zero_std_z_undefined id 2 [2, 2] [none, none] 1 h2 h1⟩

/-- C8: for non-empty equal-length inputs with no zero quote close,
`_calculate_spread` succeeds with the elementwise ratio of the same length;
for an empty input or any zero quote close it returns `none`. -/
theorem c8_spread_ratio_or_fails (basePrices quotePrices : List ℚ) :
    (basePrices ≠ [] → quotePrices ≠ [] → basePrices.length = quotePrices.length →
      (∀ q ∈ quotePrices, q ≠ 0) →
      ∃ s, calculateSpread basePrices quotePrices = some s ∧
        s.length = basePrices.length ∧
        ∀ i, i < s.length → s.getD i 0 = basePrices.getD i 0 / quotePrices.getD i 0) ∧
    ((basePrices = [] ∨ quotePrices = [] ∨ ∃ q ∈ quotePrices, q = 0) →
      calculateSpread basePrices quotePrices = none) := by
  constructor
  · intro hb hq hlen hz
    have hany : quotePrices.any (fun q => decide (q = 0)) = false := by
      rw [Bool.eq_false_iff]
      intro h
      rcases List.any_eq_true.mp h with ⟨q, hq1, hq2⟩
      exact hz q hq1 (of_decide_eq_true hq2)
    refine ⟨List.zipWith (fun b q => b / q) basePrices quotePrices, ?_, ?_, ?_⟩
    · simp [calculateSpread, hb, hq, hany]
    · simp [List.length_zipWith, hlen]
    · intro i hi
      have hib : i < basePrices.length := by
        rw [List.length_zipWith] at hi; exact lt_of_lt_of_le hi inf_le_left
      have hiq : i < quotePrices.length := by
        rw [List.length_zipWith] at hi; exact lt_of_lt_of_le hi inf_le_right
      rw [List.getD_eq_getElem _ _ hi, List.getElem_zipWith,
        List.getD_eq_getElem _ _ hib, List.getD_eq_getElem _ _ hiq]
  · intro heq
    rcases heq with h | h | ⟨q, hq1, hq2⟩
    · simp [calculateSpread, h]
    · simp [calculateSpread, h]
    · have hany : quotePrices.any (fun q => decide (q = 0)) = true :=
        List.any_eq_true.mpr ⟨q, hq1, by simp [hq2]⟩
      simp [calculateSpread, hany]

/-- Witness for C8: the concrete input `[1, 3] / [2, 4]`. -/
theorem c8_witness :
    ∃ s, calculateSpread [1, 3] [2, 4] = some s ∧
      s.length = ([1, 3] : List ℚ).length ∧
      ∀ i, i < s.length →
        s.getD i 0 = ([1, 3] : List ℚ).getD i 0 / ([2, 4] : List ℚ).getD i 0 :=
  (c8_spread_ratio_or_fails [1, 3] [2, 4]).1 (by decide) (by decide) (by decide)
    (by decide)

/-- C9: `_calculate_z_score` fails on an empty spread, fails when the spread
is shorter than the rolling window, and otherwise yields a series of the
same length whose first `rolling_window - 1` entries are undefined. -/
theorem c9_z_score_guards (sq : ℚ → ℚ) (w : Nat) (spread : List ℚ) :
    (spread = [] → calculateZScore sq w spread = none) ∧
    (spread.length < w → calculateZScore sq w spread = none) ∧
    (spread ≠ [] → w ≤ spread.length →
      ∃ zs, calculateZScore sq w spread = some zs ∧ zs.length = spread.length ∧
        ∀ i, i + 1 < w → zs.getD i (some 0) = none) := by
  refine ⟨fun h => by rw [calculateZScore, if_pos h], fun h => ?_, fun hne hw => ?_⟩
  · rw [calculateZScore]
    by_cases he : spread = []
    · rw [if_pos he]
    · rw [if_neg he, if_pos h]
  · have hnlt : ¬ spread.length < w := not_lt.mpr hw
    have heq : calculateZScore sq w spread =
        some ((List.range spread.length).map (fun i =>
          zEntry (spread.getD i 0) ((rollingMean w spread).getD i none)
            ((rollingStd sq w spread).getD i none))) := by
      rw [calculateZScore, if_neg hne, if_neg hnlt]
    refine ⟨_, heq, by simp, ?_⟩
    intro i hi
    have hilen : i < spread.length := Nat.lt_of_succ_lt (Nat.lt_of_lt_of_le hi hw)
    have hmean : (rollingMean w spread).getD i none = none := by
      rw [rollingMean, rollingApply, List.getD_eq_getElem _ _ (by simpa using hilen)]
      simp only [List.getElem_map, List.getElem_range]
      simp [hi]
    rw [List.getD_eq_getElem _ _ (by simpa using hilen)]
    simp only [List.getElem_map, List.getElem_range]
    rw [hmean]
    cases hs : (rollingStd sq w spread).getD i none <;> simp [zEntry]

/-- Witness for C9: window 2 over a 3-element spread; the first entry is
undefined. -/
theorem c9_witness :
    ∃ zs, calculateZScore id 2 [1, 2, 4] = some zs ∧
      zs.length = ([1, 2, 4] : List ℚ).length ∧
      ∀ i, i + 1 < 2 → zs.getD i (some 0) = none :=
  (c9_z_score_guards id 2 [1, 2, 4]).2.2 (by decide) (by decide)

/-- C5: when the current Z-score is defined, triggers neither entry branch,
and is the last entry of the history (as at the call site in `get_signal`),
`_determine_signal` returns `CLOSE_POSITIONS` exactly when the history holds
a prior defined value that strictly straddles the exit threshold together
with the current value; in every other case it returns `HOLD`. -/
theorem c5_close_iff_straddle (entryThr exitThr z : ℚ) (zScoreHistory : List (Option ℚ))
    (hlo : -entryThr ≤ z) (hhi : z ≤ entryThr)
    (hlast : zScoreHistory.getLast? = some (some z)) :
    (determineSignal entryThr exitThr (some z) zScoreHistory = .CLOSE_POSITIONS ↔
      ∃ prev, (zScoreHistory.dropLast.filterMap id).getLast? = some prev ∧
        ((exitThr < prev ∧ z < exitThr) ∨ (prev < exitThr ∧ exitThr < z))) ∧
    (determineSignal entryThr exitThr (some z) zScoreHistory = .CLOSE_POSITIONS ∨
      determineSignal entryThr exitThr (some z) zScoreHistory = .HOLD) := by
  rcases List.getLast?_eq_some_iff.mp hlast with ⟨l, rfl⟩
  have h1 : ¬ entryThr < z := not_lt.mpr hhi
  have h2 : ¬ z < -entryThr := not_lt.mpr hlo
  have hfm : (l ++ [some z]).filterMap id = l.filterMap id ++ [z] := by
    rw [List.filterMap_append]; rfl
  have hdl : (l ++ [some z]).dropLast = l := List.dropLast_concat
  simp only [determineSignal, if_neg h1, if_neg h2, hfm, hdl]
  rcases List.eq_nil_or_concat (l.filterMap id) with hnil | ⟨v0, p, hcc⟩
  · rw [hnil]
    simp
  · rw [List.concat_eq_append] at hcc
    rw [hcc]
    have hlen : 2 ≤ ((v0 ++ [p]) ++ [z]).length := by simp
    have hprev : ((v0 ++ [p]) ++ [z]).getD (((v0 ++ [p]) ++ [z]).length - 2) 0 = p := by
      have hL : ((v0 ++ [p]) ++ [z]).length - 2 = v0.length := by simp
      rw [hL, List.append_assoc, List.getD_append_right _ _ _ _ le_rfl, Nat.sub_self]
      rfl
    rw [if_pos hlen, hprev, List.getLast?_concat]
    by_cases hstr : (exitThr < p ∧ z < exitThr) ∨ (p < exitThr ∧ exitThr < z)
    · rw [if_pos hstr]
      exact ⟨⟨fun _ => ⟨p, rfl, hstr⟩, fun _ => rfl⟩, Or.inl rfl⟩
    · rw [if_neg hstr]
      refine ⟨⟨fun h => absurd h (by decide), ?_⟩, Or.inr rfl⟩
      rintro ⟨prev, hp, hs⟩
      injection hp with hp
      exact absurd hs (hp ▸ hstr)

/-- Witness for C5: history `[1, -1]` with exit threshold `0` straddles, so
the current reading `-1` (within the entry band of `2`) closes. -/
theorem c5_witness :
    determineSignal 2 0 (some (-1)) [some 1, some (-1)] = .CLOSE_POSITIONS :=
  ((c5_close_iff_straddle 2 0 (-1) [some 1, some (-1)] (by norm_num) (by norm_num)
      rfl).1).mpr ⟨1, rfl, Or.inl (by norm_num)⟩

/-- C2 counterexample: a spread-stage failure (zero quote close) yields an
invalid result whose `eth_close` is the actual latest quote close `2`, not
the sentinel zero the claim requires for all numeric fields. -/
theorem c2_counterexample :
    (getSignal id ⟨2, 2, 0⟩ (some [1, 3]) (some [0, 2])).is_data_valid = false ∧
    (getSignal id ⟨2, 2, 0⟩ (some [1, 3]) (some [0, 2])).eth_close ≠ 0 := by
  have hfb : fetchData (some ([1, 3] : List ℚ)) = some [1, 3] := by
    simp [fetchData]
  have hfq : fetchData (some ([0, 2] : List ℚ)) = some [0, 2] := by
    simp [fetchData]
  have hsp : calculateSpread [1, 3] [0, 2] = none := by
    rw [calculateSpread, if_neg (by simp), if_pos (by norm_num)]
  have hg : getSignal id ⟨2, 2, 0⟩ (some [1, 3]) (some [0, 2]) =
      spreadFailResult [1, 3] [0, 2] := by
    simp only [getSignal, hfb, hfq, hsp]
  rw [hg]
  exact ⟨rfl, by norm_num [spreadFailResult]⟩

/-- C2 (amended): every invalid result carries `HOLD`, a non-empty error
description and zero `z_score`, `spread`, `spread_mean`, `spread_std`; the
latest closes are zero in the fetch-failure branch, while the spread- and
Z-score-failure branches report the actual latest fetched closes. -/
theorem c2_invalid_result_fields (sq : ℚ → ℚ) (p : StrategyParams)
    (rawBase rawQuote : Option (List ℚ))
    (hinv : (getSignal sq p rawBase rawQuote).is_data_valid = false) :
    (getSignal sq p rawBase rawQuote).signal = .HOLD ∧
    (∃ msg, (getSignal sq p rawBase rawQuote).error_message = some msg ∧ msg ≠ "") ∧
    (getSignal sq p rawBase rawQuote).z_score = some 0 ∧
    (getSignal sq p rawBase rawQuote).spread = 0 ∧
    (getSignal sq p rawBase rawQuote).spread_mean = some 0 ∧
    (getSignal sq p rawBase rawQuote).spread_std = some 0 ∧
    ((fetchData rawBase = none ∨ fetchData rawQuote = none) →
      (getSignal sq p rawBase rawQuote).btc_close = 0 ∧
      (getSignal sq p rawBase rawQuote).eth_close = 0) ∧
    (∀ dfBase dfQuote, fetchData rawBase = some dfBase →
      fetchData rawQuote = some dfQuote →
      (getSignal sq p rawBase rawQuote).btc_close = dfBase.getLastD 0 ∧
      (getSignal sq p rawBase rawQuote).eth_close = dfQuote.getLastD 0) := by
  rcases hfb : fetchData rawBase with _ | dfBase
  · have hg : getSignal sq p rawBase rawQuote = fetchFailResult := by
      simp only [getSignal, hfb]
    rw [hg]
    exact ⟨rfl, ⟨_, rfl, by decide⟩, rfl, rfl, rfl, rfl, fun _ => ⟨rfl, rfl⟩,
      fun dfB dfQ hB hQ => Option.noConfusion hB⟩
  · rcases hfq : fetchData rawQuote with _ | dfQuote
    · have hg : getSignal sq p rawBase rawQuote = fetchFailResult := by
        simp only [getSignal, hfb, hfq]
      rw [hg]
      exact ⟨rfl, ⟨_, rfl, by decide⟩, rfl, rfl, rfl, rfl, fun _ => ⟨rfl, rfl⟩,
        fun dfB dfQ hB hQ => Option.noConfusion hQ⟩
    · have hclose : ∀ r : StrategyResult, r.btc_close = dfBase.getLastD 0 →
          r.eth_close = dfQuote.getLastD 0 → ∀ dfB dfQ : List ℚ,
          some dfBase = some dfB → some dfQuote = some dfQ →
          r.btc_close = dfB.getLastD 0 ∧ r.eth_close = dfQ.getLastD 0 := by
        intro r h1 h2 dfB dfQ hB hQ
        injection hB with hB
        injection hQ with hQ
        subst hB; subst hQ
        exact ⟨h1, h2⟩
      have hnof : (some dfBase = none ∨ some dfQuote = none) → False := by
        rintro (h | h) <;> exact Option.noConfusion h
      rcases hsp : calculateSpread dfBase dfQuote with _ | spreadSeries
      · have hg : getSignal sq p rawBase rawQuote = spreadFailResult dfBase dfQuote := by
          simp only [getSignal, hfb, hfq, hsp]
        rw [hg]
        exact ⟨rfl, ⟨_, rfl, by decide⟩, rfl, rfl, rfl, rfl,
          fun h => (hnof h).elim, hclose _ rfl rfl⟩
      · by_cases hse : spreadSeries = []
        · have hg : getSignal sq p rawBase rawQuote = spreadFailResult dfBase dfQuote := by
            simp only [getSignal, hfb, hfq, hsp]
            rw [if_pos hse]
          rw [hg]
          exact ⟨rfl, ⟨_, rfl, by decide⟩, rfl, rfl, rfl, rfl,
            fun h => (hnof h).elim, hclose _ rfl rfl⟩
        · rcases hzs : calculateZScore sq p.rolling_window spreadSeries with _ | zSeries
          · have hg : getSignal sq p rawBase rawQuote =
                zScoreFailResult dfBase dfQuote := by
              simp only [getSignal, hfb, hfq, hsp]
              rw [if_neg hse]
              simp only [hzs]
            rw [hg]
            exact ⟨rfl, ⟨_, rfl, by decide⟩, rfl, rfl, rfl, rfl,
              fun h => (hnof h).elim, hclose _ rfl rfl⟩
          · by_cases hzf : zSeries.filterMap id = []
            · have hg : getSignal sq p rawBase rawQuote =
                  zScoreFailResult dfBase dfQuote := by
                simp only [getSignal, hfb, hfq, hsp]
                rw [if_neg hse]
                simp only [hzs]
                rw [if_pos hzf]
              rw [hg]
              exact ⟨rfl, ⟨_, rfl, by decide⟩, rfl, rfl, rfl, rfl,
                fun h => (hnof h).elim, hclose _ rfl rfl⟩
            · exfalso
              have hg : (getSignal sq p rawBase rawQuote).is_data_valid = true := by
                simp [getSignal, hfb, hfq, hsp, hzs, hse, hzf]
              rw [hg] at hinv
              exact Bool.noConfusion hinv

/-- Witness for C2: a fetch failure on both legs. -/
theorem c2_witness :
    (getSignal id ⟨2, 2, 0⟩ none none).is_data_valid = false ∧
    (getSignal id ⟨2, 2, 0⟩ none none).signal = .HOLD := by
  have hinv : (getSignal id ⟨2, 2, 0⟩ none none).is_data_valid = false := by
    simp [getSignal, fetchData, fetchFailResult]
  exact ⟨hinv, (c2_invalid_result_fields id ⟨2, 2, 0⟩ none none hinv).1⟩

/-- C10: when both fetches succeed and the Z-score series has a defined
entry but an undefined latest entry, `get_signal` returns `HOLD` with
`is_data_valid` still `true` and a `NaN` (`none`) `z_score`: the validity
flag does not cover an undefined current Z-score. -/
theorem c10_nan_latest_still_valid (sq : ℚ → ℚ) (p : StrategyParams)
    (dfBase dfQuote : List ℚ) (hbne : dfBase ≠ []) (hqne : dfQuote ≠ [])
    (spreadSeries : List ℚ)
    (hsp : calculateSpread dfBase dfQuote = some spreadSeries)
    (zSeries : List (Option ℚ))
    (hzs : calculateZScore sq p.rolling_window spreadSeries = some zSeries)
    (hdef : zSeries.filterMap id ≠ [])
    (hnan : zSeries.getLast? = some none) :
    (getSignal sq p (some dfBase) (some dfQuote)).signal = .HOLD ∧
    (getSignal sq p (some dfBase) (some dfQuote)).is_data_valid = true ∧
    (getSignal sq p (some dfBase) (some dfQuote)).z_score = none := by
  have hsne : spreadSeries ≠ [] := by
    intro h
    rw [calculateZScore, if_pos h] at hzs
    exact Option.noConfusion hzs
  have hfb : fetchData (some dfBase) = some dfBase := by simp [fetchData, hbne]
  have hfq : fetchData (some dfQuote) = some dfQuote := by simp [fetchData, hqne]
  refine ⟨?_, ?_, ?_⟩ <;>
    simp [getSignal, hfb, hfq, hsp, hzs, hsne, hdef, hnan, determineSignal]

/-- Witness for C10: spread `[1, 2, 2]` with window 2 has a defined Z-score
at index 1 and an undefined one at the last index (flat window). -/
theorem c10_witness :
    (getSignal id ⟨2, 2, 0⟩ (some [1, 2, 2]) (some [1, 1, 1])).signal = .HOLD ∧
    (getSignal id ⟨2, 2, 0⟩ (some [1, 2, 2]) (some [1, 1, 1])).is_data_valid = true ∧
    (getSignal id ⟨2, 2, 0⟩ (some [1, 2, 2]) (some [1, 1, 1])).z_score = none := by
  have hsp : calculateSpread [1, 2, 2] [1, 1, 1] = some [1, 2, 2] := by
    rw [calculateSpread, if_neg (by simp), if_neg (by norm_num)]
    norm_num
  have hm : rollingMean 2 [1, 2, 2] = [none, some (3 / 2), some 2] := by
    norm_num [rollingMean, rollingApply, trailingWindow, listMean, List.range_succ]
  have hs : rollingStd id 2 [1, 2, 2] = [none, some (1 / 2), some 0] := by
    norm_num [rollingStd, rollingApply, trailingWindow, sampleVar, listMean,
      List.range_succ]
  have hzs : calculateZScore id 2 [1, 2, 2] = some [none, some 1, none] := by
    rw [calculateZScore, if_neg (by simp : ¬([1, 2, 2] : List ℚ) = []),
      if_neg (by norm_num : ¬([1, 2, 2] : List ℚ).length < 2)]
    norm_num [hm, hs, zEntry, List.range_succ]
  exact c10_nan_latest_still_valid id ⟨2, 2, 0⟩ [1, 2, 2] [1, 1, 1] (by simp) (by simp)
    [1, 2, 2] hsp [none, some 1, none] hzs (by simp) rfl

end Ouroboros
